import Mathlib

/-!
Shallow embedding of the forecasting model-selection-and-evaluation design
notebook (`steps/01_forecasting_api/forecasting-model-selection-and-evaluation.ipynb`).

The notebook defines two pieces of code:

* `evaluate(forecaster, y, fh, cv=None, strategy="refit", scoring=None)`:
  pre-allocates a score array of size `cv.get_n_splits(y)`, then for each
  `(train, test)` pair from `cv.split(y)` slices the series, calls
  `forecaster.fit(y_train, fh)`, `forecaster.predict()`, and writes
  `scores[i] = scoring(y_test, y_pred)`.  The strategy/cv/scoring checks in the
  source are comments only; the body performs no validation, no error handling
  and never calls `forecaster.update`.

* `ForecastingGridSearchCV.fit(self, y, fh=None, X=None)`: for each `params` of
  `self.param_grid` in order, clones `self.forecaster`, applies `set_params`,
  calls `evaluate`, and stores `np.mean(scores)` into a local `cv_results`
  array; selection of best params is a comment only, and the method returns
  `self`.

Embedding conventions: series values are `ℤ`, scores are `ℚ`, Python
exceptions are `Except String`, the in-place mutation of the forecaster object
is explicit state passing (the final state is returned alongside the scores),
`np.empty` is a list of `none` (uninitialized) entries, and an out-of-range
index write raises `"IndexError"` as in numpy.  The execution additionally
records an event trace with one event per `forecaster.fit` / `forecaster.update`
call, so that claims about the number of fit computations are expressible.
-/

/-- Observations of a univariate series (stand-in for a pandas Series). -/
abbrev Series := List ℤ

/-- Positional indexing `y.iloc[idx]`. -/
def iloc (y : Series) (idx : List ℕ) : Series :=
  idx.map fun i => y.getD i 0

/-- The forecaster capability consumed by `evaluate`: `fit`, `predict`,
`update`, with the instance's in-place mutable state made explicit (type `σ`);
each call may raise. -/
structure Forecaster (σ : Type) where
  fit : σ → Series → List ℕ → Except String σ
  predict : σ → Except String Series
  update : σ → Series → Except String σ

/-- The cross-validator object consumed by `evaluate`: `get_n_splits` and
`split` (the window splitter itself is outside the notebook's code). -/
structure CV where
  get_n_splits : Series → ℕ
  split : Series → List (List ℕ × List ℕ)

/-- Execution events recorded while running the embedded code: one `fitEv` per
`forecaster.fit` call (carrying the train index window), one `updateEv` per
`forecaster.update` call. -/
inductive Event
  | fitEv (train : List ℕ)
  | updateEv
deriving DecidableEq

/-- Whether an event is a `forecaster.fit` call. -/
def Event.isFit : Event → Bool
  | .fitEv _ => true
  | .updateEv => false

/-- Number of `forecaster.fit` calls recorded in a trace. -/
def countFits (tr : List Event) : ℕ :=
  (tr.filter Event.isFit).length

/-- Number of `forecaster.update` calls recorded in a trace. -/
def countUpdates (tr : List Event) : ℕ :=
  (tr.filter fun e => !e.isFit).length

/-- The loop of `evaluate`: `for i, (train, test) in enumerate(cv.split(y))`,
slice the data, fit, predict, score, then `scores[i] = ...` (an out-of-range
write raises `IndexError`). -/
def evalLoop (F : Forecaster σ) (y : Series) (fh : List ℕ)
    (scoring : Series → Series → Except String ℚ) :
    List (List ℕ × List ℕ) → ℕ → List (Option ℚ) → σ → List Event →
    Except String (List (Option ℚ) × σ × List Event)
  | [], _, scores, s, tr => .ok (scores, s, tr)
  | (train, test) :: rest, i, scores, s, tr => do
    let y_train := iloc y train
    let y_test := iloc y test
    let s1 ← F.fit s y_train fh
    let y_pred ← F.predict s1
    let sc ← scoring y_test y_pred
    if i < scores.length then
      evalLoop F y fh scoring rest (i + 1) (scores.set i (some sc)) s1
        (tr ++ [Event.fitEv train])
    else
      .error "IndexError"

/-- `evaluate(forecaster, y, fh, cv, strategy, scoring)` from the notebook:
pre-allocates `scores = np.empty(cv.get_n_splits(y))` (a list of `none`
entries), then runs the fit/predict/score loop.  Returns the scores, the
forecaster's final state (the caller's instance is mutated in place), and the
event trace.  The body reads neither `strategy` nor any validation result: the
checks in the source are comments. -/
def evaluate (F : Forecaster σ) (s0 : σ) (y : Series) (fh : List ℕ) (cv : CV)
    (strategy : String) (scoring : Series → Series → Except String ℚ) :
    Except String (List (Option ℚ) × σ × List Event) :=
  let n_splits := cv.get_n_splits y
  evalLoop F y fh scoring (cv.split y) 0 (List.replicate n_splits none) s0 []

/-- `np.mean` over the scores array; an uninitialized entry reads as 0. -/
def npMean (l : List (Option ℚ)) : ℚ :=
  (l.foldl (fun acc x => acc + x.getD 0) 0) / l.length

/-- A forecaster template as stored on `ForecastingGridSearchCV`: the
capability table, the template's current state (parameters included), and
`set_params`. -/
structure ForecasterTemplate (σ P : Type) where
  ops : Forecaster σ
  init : σ
  set_params : σ → P → σ

/-- `clone`: value copy of the template (sklearn-style `clone`); the copy is
mutated by `set_params` in place of the stored template. -/
def clone (t : ForecasterTemplate σ P) : ForecasterTemplate σ P := t

/-- The `ForecastingGridSearchCV` object of the notebook. -/
structure ForecastingGridSearchCV (σ P : Type) where
  forecaster : ForecasterTemplate σ P
  param_grid : List P
  cv : CV
  strategy : String
  scoring : Series → Series → Except String ℚ

/-- The loop of `ForecastingGridSearchCV.fit`: for `i, params` in
`enumerate(self.param_grid)`, clone the template, `set_params` on the clone,
run `evaluate` with the shared `cv`, `strategy` and `scoring`, and write
`cv_results[i] = np.mean(scores)`. -/
def selLoop (t : ForecasterTemplate σ P) (y : Series) (fh : List ℕ) (cv : CV)
    (strategy : String) (scoring : Series → Series → Except String ℚ) :
    List P → ℕ → List (Option ℚ) → List Event →
    Except String (List (Option ℚ) × List Event)
  | [], _, arr, tr => .ok (arr, tr)
  | p :: rest, i, arr, tr => do
    let fc := clone t
    let fc := { fc with init := fc.set_params fc.init p }
    let r ← evaluate fc.ops fc.init y fh cv strategy scoring
    if i < arr.length then
      selLoop t y fh cv strategy scoring rest (i + 1)
        (arr.set i (some (npMean r.1))) (tr ++ r.2.2)
    else
      .error "IndexError"

/-- The `cv_results` computation local to `ForecastingGridSearchCV.fit`
(pre-allocated with `np.empty(len(self.param_grid))`). -/
def ForecastingGridSearchCV.cvResults (gs : ForecastingGridSearchCV σ P)
    (y : Series) (fh : List ℕ) : Except String (List (Option ℚ) × List Event) :=
  selLoop gs.forecaster y fh gs.cv gs.strategy gs.scoring gs.param_grid 0
    (List.replicate gs.param_grid.length none) []

/-- `ForecastingGridSearchCV.fit`: computes `cv_results` locally (and discards
it — the select-best-params step is only a comment in the source) and returns
`self`. -/
def ForecastingGridSearchCV.fit (gs : ForecastingGridSearchCV σ P)
    (y : Series) (fh : List ℕ) :
    Except String (ForecastingGridSearchCV σ P × List Event) := do
  let r ← gs.cvResults y fh
  .ok (gs, r.2)

/-- The sampling strategies of the spec's WindowSplitter (§4.1). -/
inductive SplitStrategy
  | blocked
  | sliding
  | slidingInit
  | expanding
deriving DecidableEq

/-- Offsets `0, step, 2*step, ...` while `≤ limit`.  Fuel-bounded recursion:
with `0 < step`, fuel `limit + 1` never runs out. -/
def offsetsAux (step limit : ℕ) : ℕ → ℕ → List ℕ
  | 0, _ => []
  | fuel + 1, start =>
    if start ≤ limit then start :: offsetsAux step limit fuel (start + step)
    else []

/-- The train-window start offsets of a splitter pass. -/
def offsets (step limit : ℕ) : List ℕ :=
  offsetsAux step limit (limit + 1) 0

/-- Modelled from the spec: `WindowSplitter.generate` (§4.1) — the cv object
handed to `evaluate` is not part of the notebook's code, only its caller is.
Produces the ordered train/test window sequence for each strategy; a series too
short for one window yields the empty sequence (the spec's
`InsufficientDataError` case carries no windows). -/
def generate (L h : ℕ) (strat : SplitStrategy) (w step init : ℕ) :
    List (List ℕ × List ℕ) :=
  match strat with
  | .blocked =>
    if w + h ≤ L then
      (offsets (w + h) (L - (w + h))).map fun o =>
        (List.range' o w, List.range' (o + w) h)
    else []
  | .sliding =>
    if w + h ≤ L then
      (offsets step (L - (w + h))).map fun o =>
        (List.range' o w, List.range' (o + w) h)
    else []
  | .slidingInit =>
    if init + h ≤ L then
      (offsets step (L - (init + h))).map fun o =>
        (List.range (init + o), List.range' (init + o) h)
    else []
  | .expanding =>
    if w + h ≤ L then
      (offsets step (L - (w + h))).map fun o =>
        (List.range (w + o), List.range' (w + o) h)
    else []

/-- Modelled from the spec: `n_splits` in closed form from the integer
parameters (§4.1 edge-case policy), without materializing the sequence. -/
def nSplits (L h : ℕ) (strat : SplitStrategy) (w step init : ℕ) : ℕ :=
  match strat with
  | .blocked => L / (w + h)
  | .sliding => if w + h ≤ L then (L - (w + h)) / step + 1 else 0
  | .slidingInit => if init + h ≤ L then (L - (init + h)) / step + 1 else 0
  | .expanding => if w + h ≤ L then (L - (w + h)) / step + 1 else 0

/-- Modelled from the spec: the cv object built on the WindowSplitter, exposing
`get_n_splits` (closed form) and `split` (the generated sequence). -/
def mkCV (strat : SplitStrategy) (h w step init : ℕ) : CV :=
  { get_n_splits := fun y => nSplits y.length h strat w step init
    split := fun y => generate y.length h strat w step init }

/-- Following the claim's words (spec §4.2, `refit` discipline): the score of
one window evaluated independently — a fresh forecaster instance (initial state
`s0` from the factory) fit on the window's train subset, predicting, scoring
against the test subset. -/
def freshWindowScore (F : Forecaster σ) (s0 : σ) (y : Series) (fh : List ℕ)
    (wnd : List ℕ × List ℕ) (scoring : Series → Series → Except String ℚ) :
    Except String ℚ := do
  let s ← F.fit s0 (iloc y wnd.1) fh
  let p ← F.predict s
  scoring (iloc y wnd.2) p

/-- Following the spec (§3, CacheKey): the distinct (train-index set,
configuration) pairs arising from a parameter grid and a split plan. -/
def distinctCacheKeys [DecidableEq P] (grid : List P)
    (splits : List (List ℕ × List ℕ)) : List (List ℕ × P) :=
  ((grid.map fun p => splits.map fun wnd => (wnd.1, p)).flatten).dedup

/-- A trivial total forecaster: stateless fit, constant prediction. -/
def constForecaster : Forecaster Unit :=
  { fit := fun _ _ _ => .ok ()
    predict := fun _ => .ok [0]
    update := fun s _ => .ok s }

/-- A trivial total scoring function (constant 0 loss). -/
def constScoring : Series → Series → Except String ℚ :=
  fun _ _ => .ok 0

/-- A forecaster whose fit result depends on the instance's prior state: the
state counts how many times this instance has been fit, and `predict` exposes
the count. -/
def statefulForecaster : Forecaster ℤ :=
  { fit := fun s _ _ => .ok (s + 1)
    predict := fun s => .ok [s]
    update := fun s _ => .ok s }

/-- Scoring that reports the first predicted value (exposing forecaster
state). -/
def headScoring : Series → Series → Except String ℚ :=
  fun _ y_pred => .ok ((y_pred.getD 0 0 : ℤ) : ℚ)

/-- Scoring that raises on the test window whose observations are `[5]` and
scores 0 elsewhere. -/
def boomScoring : Series → Series → Except String ℚ :=
  fun y_test _ => if y_test = [5] then .error "boom" else .ok 0

/-- A two-window cross-validator with both train windows at position 0. -/
def cvTwo : CV :=
  { get_n_splits := fun _ => 2
    split := fun _ => [([0], [1]), ([0], [1])] }

/-- A two-window cross-validator over consecutive positions. -/
def cvSeq : CV :=
  { get_n_splits := fun _ => 2
    split := fun _ => [([0], [1]), ([1], [2])] }

/-- A one-window cross-validator. -/
def cvOne : CV :=
  { get_n_splits := fun _ => 1
    split := fun _ => [([0], [1])] }

/-- A trivial template for grid-search fixtures: parameters are ignored by the
constant forecaster. -/
def constTemplate : ForecasterTemplate Unit ℕ :=
  { ops := constForecaster
    init := ()
    set_params := fun s _ => s }

/-- Grid-search fixture with a duplicated configuration and a one-window cv
(one distinct (train-window, configuration) cache key). -/
def gsDup : ForecastingGridSearchCV Unit ℕ :=
  { forecaster := constTemplate
    param_grid := [7, 7]
    cv := cvOne
    strategy := "refit"
    scoring := constScoring }

/-- Grid-search fixture with a duplicated configuration and a two-window cv. -/
def gsDupTwo : ForecastingGridSearchCV Unit ℕ :=
  { forecaster := constTemplate
    param_grid := [3, 3]
    cv := cvTwo
    strategy := "refit"
    scoring := constScoring }

/-- Grid-search fixture with two distinct configurations that tie (both score
0 on every window). -/
def gsTie : ForecastingGridSearchCV Unit ℕ :=
  { forecaster := constTemplate
    param_grid := [1, 2]
    cv := cvOne
    strategy := "refit"
    scoring := constScoring }

/-- Grid-search fixture with a single configuration and a one-window cv. -/
def gsOne : ForecastingGridSearchCV Unit ℕ :=
  { forecaster := constTemplate
    param_grid := [1]
    cv := cvOne
    strategy := "refit"
    scoring := constScoring }

/-- A short series fixture. -/
def ySmall : Series := [0, 5, 1]

/-- A short series whose second window's test observations trigger
`boomScoring`. -/
def ySecond : Series := [0, 1, 5]

/-- A series of length 50 (the spec's sliding-with-initial-window scenario). -/
def yFifty : Series := List.replicate 50 0

/-- The spec's sliding-with-initial-window cross-validator: series length 50,
initial_window_length 20, step_length 5, horizon_length 5. -/
def cvSlidingInit : CV := mkCV .slidingInit 5 20 5 20

/-- A cross-validator whose split yields more pairs than its reported
n_splits. -/
def cvBad : CV :=
  { get_n_splits := fun _ => 1
    split := fun _ => [([0], [1]), ([1], [2])] }

/-- On success, the evaluate loop preserves the score-array length, records one
fit event per window and no update events, leaves entries outside the written
range untouched, and writes a score at every window position. -/
theorem evalLoop_ok_spec {σ : Type} (F : Forecaster σ) (y : Series) (fh : List ℕ)
    (scoring : Series → Series → Except String ℚ) :
    ∀ (ws : List (List ℕ × List ℕ)) (i : ℕ) (scores : List (Option ℚ)) (s : σ)
      (tr : List Event) (sc : List (Option ℚ)) (st : σ) (tr' : List Event),
      evalLoop F y fh scoring ws i scores s tr = Except.ok (sc, st, tr') →
      sc.length = scores.length ∧
      countFits tr' = countFits tr + ws.length ∧
      countUpdates tr' = countUpdates tr ∧
      (∀ k, k < i ∨ i + ws.length ≤ k → sc[k]? = scores[k]?) ∧
      (∀ j, j < ws.length → ∃ q : ℚ, sc[i + j]? = some (some q)) := by
  intro ws
  induction ws with
  | nil =>
    intro i scores s tr sc st tr' h
    simp only [evalLoop, Except.ok.injEq, Prod.mk.injEq] at h
    obtain ⟨h1, h2, h3⟩ := h
    subst h1; subst h3
    refine ⟨rfl, by simp, by simp, fun k _ => rfl, fun j hj => absurd hj (by simp)⟩
  | cons wnd rest ih =>
    intro i scores s tr sc st tr' h
    obtain ⟨train, test⟩ := wnd
    simp only [evalLoop, Bind.bind, Except.bind] at h
    cases hf : F.fit s (iloc y train) fh with
    | error e => exact absurd ((by simp only [hf] at h; exact h) : (Except.error e : Except String _) = _) (by simp)
    | ok s1 =>
      simp only [hf] at h
      cases hp : F.predict s1 with
      | error e => exact absurd ((by simp only [hp] at h; exact h) : (Except.error e : Except String _) = _) (by simp)
      | ok y_pred =>
        simp only [hp] at h
        cases hs : scoring (iloc y test) y_pred with
        | error e => exact absurd ((by simp only [hs] at h; exact h) : (Except.error e : Except String _) = _) (by simp)
        | ok q =>
          simp only [hs] at h
          by_cases hi : i < scores.length
          · rw [if_pos hi] at h
            obtain ⟨l1, c1, c2, u1, w1⟩ :=
              ih (i + 1) (scores.set i (some q)) s1 (tr ++ [Event.fitEv train]) sc st tr' h
            have lset : (scores.set i (some q)).length = scores.length := List.length_set ..
            refine ⟨l1.trans lset, ?_, ?_, ?_, ?_⟩
            · rw [c1]
              simp [countFits, Event.isFit, List.length_cons]
              omega
            · rw [c2]; simp [countUpdates, Event.isFit]
            · intro k hk
              rcases hk with hk | hk
              · have := u1 k (Or.inl (by omega))
                rw [this, List.getElem?_set_ne (by omega)]
              · have hlen : ((train, test) :: rest).length = rest.length + 1 := rfl
                rw [hlen] at hk
                have := u1 k (Or.inr (by omega))
                rw [this, List.getElem?_set_ne (by omega)]
            · intro j hj
              cases j with
              | zero =>
                have hu : sc[i + 0]? = (scores.set i (some q))[i]? := by
                  have := u1 i (Or.inl (Nat.lt_succ_self i))
                  simpa using this
                rw [hu]
                exact ⟨q, List.getElem?_set_eq_of_lt _ hi⟩
              | succ j =>
                have hj2 : j < rest.length := by
                  have hlen : ((train, test) :: rest).length = rest.length + 1 := rfl
                  omega
                have := w1 j hj2
                have harith : i + 1 + j = i + (j + 1) := by omega
                rw [harith] at this
                exact this
          · rw [if_neg hi] at h
            exact absurd h (by simp)

/-- On success, when the forecaster's fit depends only on the train subset and
horizon (a from-scratch retrain), the score written at each window position
equals the window's independent fresh evaluation. -/
theorem evalLoop_ok_fresh {σ : Type} (F : Forecaster σ) (y : Series) (fh : List ℕ)
    (scoring : Series → Series → Except String ℚ)
    (Hpure : ∀ s s' t, F.fit s t fh = F.fit s' t fh) (s0 : σ) :
    ∀ (ws : List (List ℕ × List ℕ)) (i : ℕ) (scores : List (Option ℚ)) (s : σ)
      (tr : List Event) (sc : List (Option ℚ)) (st : σ) (tr' : List Event),
      evalLoop F y fh scoring ws i scores s tr = Except.ok (sc, st, tr') →
      ∀ j, (hj : j < ws.length) →
        ∃ q : ℚ, freshWindowScore F s0 y fh (ws.get ⟨j, hj⟩) scoring = Except.ok q ∧
          sc[i + j]? = some (some q) := by
  intro ws
  induction ws with
  | nil => intro i scores s tr sc st tr' h j hj; exact absurd hj (by simp)
  | cons wnd rest ih =>
    intro i scores s tr sc st tr' h j hj
    obtain ⟨train, test⟩ := wnd
    simp only [evalLoop, Bind.bind, Except.bind] at h
    cases hf : F.fit s (iloc y train) fh with
    | error e => exact absurd ((by simp only [hf] at h; exact h) : (Except.error e : Except String _) = _) (by simp)
    | ok s1 =>
      simp only [hf] at h
      cases hp : F.predict s1 with
      | error e => exact absurd ((by simp only [hp] at h; exact h) : (Except.error e : Except String _) = _) (by simp)
      | ok y_pred =>
        simp only [hp] at h
        cases hs : scoring (iloc y test) y_pred with
        | error e => exact absurd ((by simp only [hs] at h; exact h) : (Except.error e : Except String _) = _) (by simp)
        | ok q =>
          simp only [hs] at h
          by_cases hi : i < scores.length
          · rw [if_pos hi] at h
            cases j with
            | zero =>
              refine ⟨q, ?_, ?_⟩
              · show freshWindowScore F s0 y fh (train, test) scoring = Except.ok q
                simp only [freshWindowScore, Bind.bind, Except.bind]
                rw [Hpure s0 s (iloc y train)]
                simp only [hf, hp, hs]
              · obtain ⟨_, _, _, u1, _⟩ :=
                  evalLoop_ok_spec F y fh scoring rest (i + 1) (scores.set i (some q)) s1
                    (tr ++ [Event.fitEv train]) sc st tr' h
                have hu : sc[i]? = (scores.set i (some q))[i]? :=
                  u1 i (Or.inl (Nat.lt_succ_self i))
                simpa [hu] using List.getElem?_set_eq_of_lt (some q) hi
            | succ j =>
              have hj2 : j < rest.length := by
                have : ((train, test) :: rest).length = rest.length + 1 := rfl
                omega
              have := ih (i + 1) (scores.set i (some q)) s1 (tr ++ [Event.fitEv train]) sc st tr' h j hj2
              obtain ⟨q2, hq1, hq2⟩ := this
              refine ⟨q2, ?_, ?_⟩
              · exact hq1
              · have harith : i + 1 + j = i + (j + 1) := by omega
                rwa [harith] at hq2
          · rw [if_neg hi] at h
            exact absurd h (by simp)

theorem evalLoop_overflow {σ : Type} (F : Forecaster σ) (y : Series) (fh : List ℕ)
    (scoring : Series → Series → Except String ℚ)
    (Hfit : ∀ s t, ∃ s', F.fit s t fh = Except.ok s')
    (Hpred : ∀ s, ∃ p, F.predict s = Except.ok p)
    (Hscore : ∀ a b, ∃ q, scoring a b = Except.ok q) :
    ∀ (ws : List (List ℕ × List ℕ)) (i : ℕ) (scores : List (Option ℚ)) (s : σ)
      (tr : List Event),
      scores.length < i + ws.length → 0 < ws.length →
      evalLoop F y fh scoring ws i scores s tr = Except.error "IndexError" := by
  intro ws
  induction ws with
  | nil => intro i scores s tr hlt hpos; exact absurd hpos (by simp)
  | cons wnd rest ih =>
    intro i scores s tr hlt _
    obtain ⟨train, test⟩ := wnd
    obtain ⟨s1, hf⟩ := Hfit s (iloc y train)
    obtain ⟨y_pred, hp⟩ := Hpred s1
    obtain ⟨q, hs⟩ := Hscore (iloc y test) y_pred
    simp only [evalLoop, Bind.bind, Except.bind, hf, hp, hs]
    by_cases hi : i < scores.length
    · rw [if_pos hi]
      have hlen : ((train, test) :: rest).length = rest.length + 1 := rfl
      rw [hlen] at hlt
      have hpos2 : 0 < rest.length := by omega
      exact ih (i + 1) (scores.set i (some q)) s1 (tr ++ [Event.fitEv train])
        (by rw [List.length_set]; omega) hpos2
    · rw [if_neg hi]

theorem evalLoop_total {σ : Type} (F : Forecaster σ) (y : Series) (fh : List ℕ)
    (scoring : Series → Series → Except String ℚ)
    (Hfit : ∀ s t, ∃ s', F.fit s t fh = Except.ok s')
    (Hpred : ∀ s, ∃ p, F.predict s = Except.ok p)
    (Hscore : ∀ a b, ∃ q, scoring a b = Except.ok q) :
    ∀ (ws : List (List ℕ × List ℕ)) (i : ℕ) (scores : List (Option ℚ)) (s : σ)
      (tr : List Event),
      i + ws.length ≤ scores.length →
      ∃ sc st tr', evalLoop F y fh scoring ws i scores s tr = Except.ok (sc, st, tr') := by
  intro ws
  induction ws with
  | nil => intro i scores s tr _; exact ⟨scores, s, tr, rfl⟩
  | cons wnd rest ih =>
    intro i scores s tr hle
    obtain ⟨train, test⟩ := wnd
    obtain ⟨s1, hf⟩ := Hfit s (iloc y train)
    obtain ⟨y_pred, hp⟩ := Hpred s1
    obtain ⟨q, hs⟩ := Hscore (iloc y test) y_pred
    have hlen : ((train, test) :: rest).length = rest.length + 1 := rfl
    rw [hlen] at hle
    have hi : i < scores.length := by omega
    obtain ⟨sc, st, tr', hrec⟩ := ih (i + 1) (scores.set i (some q)) s1
      (tr ++ [Event.fitEv train]) (by rw [List.length_set]; omega)
    refine ⟨sc, st, tr', ?_⟩
    simp only [evalLoop, Bind.bind, Except.bind, hf, hp, hs]
    rw [if_pos hi]
    exact hrec

/-- On success, the grid-search loop preserves the results-array length,
accumulates one fit event per (configuration, window) pair, leaves positions
below the write index untouched, and records at position `i + j` the mean score
of evaluating the `j`-th remaining configuration. -/
theorem selLoop_ok_spec {σ P : Type} (t : ForecasterTemplate σ P) (y : Series)
    (fh : List ℕ) (cv : CV) (strategy : String)
    (scoring : Series → Series → Except String ℚ) :
    ∀ (grid : List P) (i : ℕ) (arr : List (Option ℚ)) (tr : List Event)
      (arr' : List (Option ℚ)) (tr' : List Event),
      selLoop t y fh cv strategy scoring grid i arr tr = Except.ok (arr', tr') →
      arr'.length = arr.length ∧
      countFits tr' = countFits tr + grid.length * (cv.split y).length ∧
      (∀ k, k < i → arr'[k]? = arr[k]?) ∧
      (∀ j, (hj : j < grid.length) →
        ∃ r, evaluate t.ops (t.set_params t.init (grid.get ⟨j, hj⟩)) y fh cv
            strategy scoring = Except.ok r ∧
          arr'[i + j]? = some (some (npMean r.1))) := by
  intro grid
  induction grid with
  | nil =>
    intro i arr tr arr' tr' h
    simp only [selLoop, Except.ok.injEq, Prod.mk.injEq] at h
    obtain ⟨h1, h2⟩ := h
    subst h1; subst h2
    exact ⟨rfl, by simp, fun k _ => rfl, fun j hj => absurd hj (by simp)⟩
  | cons p rest ih =>
    intro i arr tr arr' tr' h
    simp only [selLoop, Bind.bind, Except.bind, clone] at h
    cases he : evaluate t.ops (t.set_params t.init p) y fh cv strategy scoring with
    | error e => exact absurd ((by simp only [he] at h; exact h) : (Except.error e : Except String _) = _) (by simp)
    | ok r =>
      simp only [he] at h
      by_cases hi : i < arr.length
      · rw [if_pos hi] at h
        obtain ⟨l1, c1, u1, w1⟩ :=
          ih (i + 1) (arr.set i (some (npMean r.1))) (tr ++ r.2.2) arr' tr' h
        have hc : countFits r.2.2 = (cv.split y).length := by
          obtain ⟨sc0, st0, tr0⟩ := r
          obtain ⟨_, c, _, _, _⟩ :=
            evalLoop_ok_spec t.ops y fh scoring (cv.split y) 0
              (List.replicate (cv.get_n_splits y) none) (t.set_params t.init p) []
              sc0 st0 tr0 he
          simpa [countFits] using c
        refine ⟨l1.trans (List.length_set ..), ?_, ?_, ?_⟩
        · rw [c1]
          have : countFits (tr ++ r.2.2) = countFits tr + countFits r.2.2 := by
            simp [countFits, List.filter_append]
          rw [this, hc]
          have hlen : (p :: rest).length = rest.length + 1 := rfl
          rw [hlen]; ring
        · intro k hk
          have := u1 k (by omega)
          rw [this, List.getElem?_set_ne (by omega)]
        · intro j hj
          cases j with
          | zero =>
            refine ⟨r, he, ?_⟩
            have hu : arr'[i]? = (arr.set i (some (npMean r.1)))[i]? :=
              u1 i (Nat.lt_succ_self i)
            simpa [hu] using List.getElem?_set_eq_of_lt (some (npMean r.1)) hi
          | succ j =>
            have hj2 : j < rest.length := by
              have : (p :: rest).length = rest.length + 1 := rfl
              omega
            obtain ⟨r2, hr1, hr2⟩ := w1 j hj2
            refine ⟨r2, hr1, ?_⟩
            have harith : i + 1 + j = i + (j + 1) := by omega
            rwa [harith] at hr2
      · rw [if_neg hi] at h
        exact absurd h (by simp)

/-- The fuel-bounded offset enumeration has the closed-form length. -/
theorem offsetsAux_length (step limit : ℕ) (hstep : 0 < step) :
    ∀ fuel start, limit + 1 ≤ fuel + start →
      (offsetsAux step limit fuel start).length =
        if start ≤ limit then (limit - start) / step + 1 else 0 := by
  intro fuel
  induction fuel with
  | zero =>
    intro start hf
    have hns : ¬ start ≤ limit := by omega
    simp [offsetsAux, hns]
  | succ fuel ih =>
    intro start hf
    by_cases hs : start ≤ limit
    · simp only [offsetsAux, if_pos hs, List.length_cons]
      rw [ih (start + step) (by omega)]
      by_cases hs2 : start + step ≤ limit
      · rw [if_pos hs2]
        have h1 : step ≤ limit - start := by omega
        rw [Nat.div_eq_sub_div hstep h1]
        have h2 : limit - (start + step) = limit - start - step := by omega
        rw [h2]
      · rw [if_neg hs2]
        have h3 : limit - start < step := by omega
        rw [Nat.div_eq_of_lt h3]
    · simp [offsetsAux, hs]

theorem offsets_length (step limit : ℕ) (hstep : 0 < step) :
    (offsets step limit).length = limit / step + 1 := by
  have := offsetsAux_length step limit hstep (limit + 1) 0 (by omega)
  simpa [offsets] using this

theorem generate_length (L h : ℕ) (strat : SplitStrategy) (w step init : ℕ)
    (hstep : 0 < step) (hw : 0 < w) (hh : 0 < h) :
    (generate L h strat w step init).length = nSplits L h strat w step init := by
  cases strat with
  | blocked =>
    simp only [generate, nSplits]
    by_cases hc : w + h ≤ L
    · rw [if_pos hc, List.length_map, offsets_length (w + h) _ (by omega)]
      rw [Nat.div_eq_sub_div (by omega) hc]
    · rw [if_neg hc, Nat.div_eq_of_lt (by omega)]
      rfl
  | sliding =>
    simp only [generate, nSplits]
    by_cases hc : w + h ≤ L
    · rw [if_pos hc, if_pos hc, List.length_map, offsets_length step _ hstep]
    · rw [if_neg hc, if_neg hc]; rfl
  | slidingInit =>
    simp only [generate, nSplits]
    by_cases hc : init + h ≤ L
    · rw [if_pos hc, if_pos hc, List.length_map, offsets_length step _ hstep]
    · rw [if_neg hc, if_neg hc]; rfl
  | expanding =>
    simp only [generate, nSplits]
    by_cases hc : w + h ≤ L
    · rw [if_pos hc, if_pos hc, List.length_map, offsets_length step _ hstep]
    · rw [if_neg hc, if_neg hc]; rfl

/-- C1 (amended): `evaluate` has no forecaster factory — it reuses the single
forecaster instance passed in, refitting it on every window in order.  Provided
the forecaster's fit is a from-scratch retrain (its result depends only on the
train subset and horizon, not on the instance's prior state), the score
recorded for each window equals that window's independent fresh-instance
evaluation, so no forecaster state carries over into any window's score. -/
theorem evaluate_pure_fit_window_scores_independent {σ : Type} (F : Forecaster σ)
    (s0 : σ) (y : Series) (fh : List ℕ) (cv : CV) (strat : String)
    (scoring : Series → Series → Except String ℚ)
    (Hpure : ∀ s s' t, F.fit s t fh = F.fit s' t fh)
    (sc : List (Option ℚ)) (st : σ) (tr : List Event)
    (hok : evaluate F s0 y fh cv strat scoring = Except.ok (sc, st, tr))
    (i : ℕ) (wnd : List ℕ × List ℕ) (hw : (cv.split y)[i]? = some wnd) :
    ∃ q : ℚ, freshWindowScore F s0 y fh wnd scoring = Except.ok q ∧
      sc[i]? = some (some q) := by
  have hi : i < (cv.split y).length := by
    by_contra hc
    rw [List.getElem?_eq_none (by omega)] at hw
    exact Option.noConfusion hw
  have hget : (cv.split y).get ⟨i, hi⟩ = wnd := by
    have hg := List.getElem?_eq_getElem hi
    rw [hg] at hw
    simpa using hw
  have := evalLoop_ok_fresh F y fh scoring Hpure s0 (cv.split y) 0
    (List.replicate (cv.get_n_splits y) none) s0 [] sc st tr hok i hi
  obtain ⟨q, hq1, hq2⟩ := this
  rw [hget] at hq1
  refine ⟨q, hq1, ?_⟩
  simpa using hq2

/-- C1 witness: the theorem applied to a concrete run with a state-independent
forecaster on a one-window cross-validator. -/
theorem evaluate_pure_fit_window_scores_independent_witness :
    ∃ q : ℚ, freshWindowScore constForecaster () ySmall [1] ([0], [1]) constScoring =
        Except.ok q ∧
      ([some 0] : List (Option ℚ))[0]? = some (some q) :=
  evaluate_pure_fit_window_scores_independent constForecaster () ySmall [1] cvOne
    "refit" constScoring (fun _ _ _ => rfl) [some 0] () [Event.fitEv [0]] (by rfl)
    0 ([0], [1]) (by rfl)

/-- C1 counterexample: with a forecaster whose fit depends on the instance's
prior state (the state counts fits and predict exposes it), the second window's
recorded score in a full run is 2, while its independent fresh-instance
evaluation scores 1 — forecaster state does carry over across windows, because
`evaluate` refits one shared instance instead of taking a fresh one from a
factory. -/
theorem evaluate_state_carries_over_counterexample :
    (evaluate statefulForecaster 0 ySmall [1] cvTwo "refit" headScoring).toOption.map
        (fun r => r.1) = some [some 1, some 2] ∧
      freshWindowScore statefulForecaster 0 ySmall [1] ([0], [1]) headScoring =
        Except.ok 1 ∧
      (some (2 : ℚ) : Option ℚ) ≠ some 1 := by
  refine ⟨by decide, by rfl, by decide⟩

/-- C2 (amended): no fit cache exists — within one
`ForecastingGridSearchCV.fit` run the total number of forecaster fit
executions equals configurations × windows, regardless of any overlap between
(train-window, configuration) cache keys. -/
theorem cvResults_fit_count_no_caching {σ P : Type}
    (gs : ForecastingGridSearchCV σ P) (y : Series) (fh : List ℕ)
    (arr : List (Option ℚ)) (tr : List Event)
    (hok : gs.cvResults y fh = Except.ok (arr, tr)) :
    countFits tr = gs.param_grid.length * (gs.cv.split y).length := by
  obtain ⟨_, c1, _, _⟩ :=
    selLoop_ok_spec gs.forecaster y fh gs.cv gs.strategy gs.scoring gs.param_grid 0
      (List.replicate gs.param_grid.length none) [] arr tr hok
  simpa [countFits] using c1

/-- C2 witness: the theorem applied to a one-configuration, one-window run. -/
theorem cvResults_fit_count_no_caching_witness :
    countFits [Event.fitEv [0]] = gsOne.param_grid.length * (gsOne.cv.split ySmall).length :=
  cvResults_fit_count_no_caching gsOne ySmall [1] [some (npMean [some 0])]
    [Event.fitEv [0]] (by rfl)

/-- C2 counterexample: a grid with a duplicated configuration over a
two-window cross-validator whose train windows coincide yields a single
distinct (train-window, configuration) cache key, yet the run executes 4 fits
— not at most one fit per distinct key. -/
theorem duplicate_key_fit_twice_counterexample :
    (gsDupTwo.cvResults ySmall [1]).toOption.map (fun r => countFits r.2) = some 4 ∧
      (distinctCacheKeys gsDupTwo.param_grid (gsDupTwo.cv.split ySmall)).length = 1 ∧
      (4 : ℕ) ≠ 1 := by
  refine ⟨by rfl, by decide, by decide⟩

/-- C3 (amended): `evaluate` ignores the strategy argument entirely — its
result is the same for every strategy string, the single forecaster instance is
refit on every window, and `forecaster.update` is never called. -/
theorem evaluate_ignores_strategy :
    (∀ {σ : Type} (F : Forecaster σ) (s0 : σ) (y : Series) (fh : List ℕ) (cv : CV)
      (strat strat' : String) (scoring : Series → Series → Except String ℚ),
      evaluate F s0 y fh cv strat scoring = evaluate F s0 y fh cv strat' scoring) ∧
    (∀ {σ : Type} (F : Forecaster σ) (s0 : σ) (y : Series) (fh : List ℕ) (cv : CV)
      (strat : String) (scoring : Series → Series → Except String ℚ)
      (sc : List (Option ℚ)) (st : σ) (tr : List Event),
      evaluate F s0 y fh cv strat scoring = Except.ok (sc, st, tr) →
      countFits tr = (cv.split y).length ∧ countUpdates tr = 0) := by
  refine ⟨fun F s0 y fh cv strat strat' scoring => rfl, ?_⟩
  intro σ F s0 y fh cv strat scoring sc st tr hok
  obtain ⟨_, c1, c2, _, _⟩ :=
    evalLoop_ok_spec F y fh scoring (cv.split y) 0
      (List.replicate (cv.get_n_splits y) none) s0 [] sc st tr hok
  exact ⟨by simpa [countFits] using c1, by simpa [countUpdates] using c2⟩

/-- C3 witness: the theorem applied to a concrete `strategy = "update"` run. -/
theorem evaluate_ignores_strategy_witness :
    countFits [Event.fitEv [0], Event.fitEv [1]] = 2 ∧
      countUpdates [Event.fitEv [0], Event.fitEv [1]] = 0 :=
  evaluate_ignores_strategy.2 constForecaster () ySmall [1] cvSeq "update"
    constScoring [some 0, some 0] () [Event.fitEv [0], Event.fitEv [1]] (by rfl)

/-- C3 counterexample: a two-window run with `strategy = "update"` performs 2
fit calls and 0 update calls, not the claimed single initial fit followed by an
update for the subsequent window. -/
theorem update_strategy_never_updates_counterexample :
    (evaluate constForecaster () ySmall [1] cvSeq "update" constScoring).toOption.map
        (fun r => (countFits r.2.2, countUpdates r.2.2)) = some (2, 0) ∧
      ((2 : ℕ), (0 : ℕ)) ≠ (1, 1) := by
  refine ⟨by decide, by decide⟩

/-- Running the evaluate loop over an appended window list is running it over
the first part and, on success, continuing over the second from the reached
index, scores, state and trace. -/
theorem evalLoop_append {σ : Type} (F : Forecaster σ) (y : Series) (fh : List ℕ)
    (scoring : Series → Series → Except String ℚ) :
    ∀ (ws1 ws2 : List (List ℕ × List ℕ)) (i : ℕ) (scores : List (Option ℚ))
      (s : σ) (tr : List Event),
      evalLoop F y fh scoring (ws1 ++ ws2) i scores s tr =
        Except.bind (evalLoop F y fh scoring ws1 i scores s tr)
          (fun r => evalLoop F y fh scoring ws2 (i + ws1.length) r.1 r.2.1 r.2.2) := by
  intro ws1
  induction ws1 with
  | nil =>
    intro ws2 i scores s tr
    simp [evalLoop, Except.bind]
  | cons wnd rest ih =>
    intro ws2 i scores s tr
    obtain ⟨train, test⟩ := wnd
    cases hf : F.fit s (iloc y train) fh with
    | error e =>
      simp only [List.cons_append, evalLoop, Bind.bind, Except.bind, hf]
    | ok s1 =>
      cases hp : F.predict s1 with
      | error e =>
        simp only [List.cons_append, evalLoop, Bind.bind, Except.bind, hf, hp]
      | ok p =>
        cases hs : scoring (iloc y test) p with
        | error e =>
          simp only [List.cons_append, evalLoop, Bind.bind, Except.bind, hf, hp, hs]
        | ok q =>
          simp only [List.cons_append, evalLoop, Bind.bind, Except.bind, hf, hp, hs,
            List.append_eq]
          by_cases hi : i < scores.length
          · rw [if_pos hi, if_pos hi, ih]
            have harith : i + 1 + rest.length = i + (rest.length + 1) := by omega
            simp only [List.length_cons, harith]
            cases evalLoop F y fh scoring rest (i + 1) (scores.set i (some q)) s1
                (tr ++ [Event.fitEv train]) with
            | error e2 => simp [Except.bind]
            | ok v => simp [Except.bind]
          · rw [if_neg hi, if_neg hi]

/-- C4 (amended): a failure of the fit, predict, or score step on any window —
after the preceding windows were evaluated successfully — makes the whole
`evaluate` call abort immediately with that error: no error-tagged record is
produced, no later window is evaluated, and no `fail_fast` option exists (the
behavior is unconditionally fail-fast). -/
theorem evaluate_window_failure_propagates {σ : Type} (F : Forecaster σ) (s0 : σ)
    (y : Series) (fh : List ℕ) (cv : CV) (strat : String)
    (scoring : Series → Series → Except String ℚ)
    (done : List (List ℕ × List ℕ)) (wnd : List ℕ × List ℕ)
    (rest : List (List ℕ × List ℕ)) (e : String)
    (hsplit : cv.split y = done ++ wnd :: rest)
    (scores1 : List (Option ℚ)) (s1 : σ) (tr1 : List Event)
    (hpre : evalLoop F y fh scoring done 0
        (List.replicate (cv.get_n_splits y) none) s0 [] =
      Except.ok (scores1, s1, tr1)) :
    (F.fit s1 (iloc y wnd.1) fh = Except.error e →
      evaluate F s0 y fh cv strat scoring = Except.error e) ∧
    (∀ s2, F.fit s1 (iloc y wnd.1) fh = Except.ok s2 →
      F.predict s2 = Except.error e →
      evaluate F s0 y fh cv strat scoring = Except.error e) ∧
    (∀ s2 p, F.fit s1 (iloc y wnd.1) fh = Except.ok s2 →
      F.predict s2 = Except.ok p →
      scoring (iloc y wnd.2) p = Except.error e →
      evaluate F s0 y fh cv strat scoring = Except.error e) := by
  obtain ⟨train, test⟩ := wnd
  have hev : evaluate F s0 y fh cv strat scoring =
      evalLoop F y fh scoring ((train, test) :: rest) done.length scores1 s1 tr1 := by
    show evalLoop F y fh scoring (cv.split y) 0
        (List.replicate (cv.get_n_splits y) none) s0 [] = _
    rw [hsplit, evalLoop_append, hpre]
    simp [Except.bind]
  refine ⟨?_, ?_, ?_⟩
  · intro hf
    rw [hev]
    simp only [evalLoop, Bind.bind, Except.bind, hf]
  · intro s2 hf hp
    rw [hev]
    simp only [evalLoop, Bind.bind, Except.bind, hf, hp]
  · intro s2 p hf hp hs
    rw [hev]
    simp only [evalLoop, Bind.bind, Except.bind, hf, hp, hs]

/-- C4 witness: the theorem applied to a concrete two-window run whose first
window scores successfully and whose scoring raises on the second window. -/
theorem evaluate_window_failure_propagates_witness :
    evaluate constForecaster () ySecond [1] cvSeq "refit" boomScoring =
      Except.error "boom" :=
  (evaluate_window_failure_propagates constForecaster () ySecond [1] cvSeq "refit"
    boomScoring [([0], [1])] ([1], [2]) [] "boom" rfl [some 0, none] ()
    [Event.fitEv [0]] (by rfl)).2.2 () [0] rfl rfl (by rfl)

/-- C4 counterexample: the scoring step fails on the first window of a
two-window run and `evaluate` aborts with the propagated error — no score
array, no error-tagged missing record for window 0, and no evaluation of
window 1, even though window 1 on its own would have scored successfully (and
no `fail_fast` option was ever set: the source has none). -/
theorem evaluate_aborts_on_window_failure_counterexample :
    evaluate constForecaster () ySmall [1] cvSeq "refit" boomScoring =
        Except.error "boom" ∧
      freshWindowScore constForecaster () ySmall [1] ([1], [2]) boomScoring =
        Except.ok 0 := by
  refine ⟨by rfl, by rfl⟩

/-- C5: `evaluate` performs no strategy/split-plan compatibility validation
(the checks in the source are comments) — on the spec's concrete scenario
(series length 50, sliding-with-initial-window, initial_window_length 20,
step_length 5, horizon_length 5) a `strategy = "refit"` request does not raise
`IncompatibleStrategyError`: the call completes normally and returns one score
per window. -/
theorem evaluate_no_strategy_validation :
    (evaluate constForecaster () yFifty [1, 2, 3, 4, 5] cvSlidingInit "refit"
        constScoring).toOption.map (fun r => r.1) =
      some (List.replicate 6 (some 0)) := by
  decide

/-- C6: for every strategy and every valid parameter combination, the closed
form `nSplits` equals the length of the generated window sequence; and on a cv
built from the splitter, a successful `evaluate` returns exactly one written
score per generated window, in an array of exactly that length. -/
theorem n_splits_matches_generated_length :
    (∀ (L h : ℕ) (strat : SplitStrategy) (w step init : ℕ),
      0 < step → 0 < w → 0 < h →
      nSplits L h strat w step init = (generate L h strat w step init).length) ∧
    (∀ {σ : Type} (F : Forecaster σ) (s0 : σ) (y : Series) (fh : List ℕ)
      (strat : SplitStrategy) (w step init h : ℕ) (strat' : String)
      (scoring : Series → Series → Except String ℚ)
      (sc : List (Option ℚ)) (st : σ) (tr : List Event),
      0 < step → 0 < w → 0 < h →
      evaluate F s0 y fh (mkCV strat h w step init) strat' scoring =
        Except.ok (sc, st, tr) →
      sc.length = ((mkCV strat h w step init).split y).length ∧
        ∀ j, j < sc.length → ∃ q : ℚ, sc[j]? = some (some q)) := by
  constructor
  · intro L h strat w step init hstep hw hh
    exact (generate_length L h strat w step init hstep hw hh).symm
  · intro σ F s0 y fh strat w step init h strat' scoring sc st tr hstep hw hh hok
    obtain ⟨l1, _, _, _, w1⟩ :=
      evalLoop_ok_spec F y fh scoring ((mkCV strat h w step init).split y) 0
        (List.replicate ((mkCV strat h w step init).get_n_splits y) none)
        s0 [] sc st tr hok
    have hlen : sc.length = ((mkCV strat h w step init).split y).length := by
      rw [l1, List.length_replicate]
      show nSplits y.length h strat w step init =
        (generate y.length h strat w step init).length
      exact (generate_length y.length h strat w step init hstep hw hh).symm
    refine ⟨hlen, ?_⟩
    intro j hj
    have := w1 j (by rw [← hlen]; exact hj)
    simpa using this

/-- C6 witness: the theorem applied to the spec's sliding-with-initial-window
scenario and to a concrete evaluate run over the spec's blocked scenario. -/
theorem n_splits_matches_generated_length_witness :
    nSplits 50 5 SplitStrategy.slidingInit 20 5 20 =
      (generate 50 5 SplitStrategy.slidingInit 20 5 20).length :=
  n_splits_matches_generated_length.1 50 5 SplitStrategy.slidingInit 20 5 20
    (by decide) (by decide) (by decide)

/-- C7 (amended): `ForecastingGridSearchCV.fit` processes the configurations of
`param_grid` in enumeration order; for each it clones the template, applies the
configuration with `set_params`, and invokes `evaluate` with the shared `cv`,
`strategy` and `scoring` (no FitCache exists — `evaluate` takes no cache
argument); the local results entry at position `i` is the mean aggregate of
evaluating the `i`-th configuration (the array is local to `fit` and discarded
on return). -/
theorem cvResults_per_config_in_order {σ P : Type}
    (gs : ForecastingGridSearchCV σ P) (y : Series) (fh : List ℕ)
    (arr : List (Option ℚ)) (tr : List Event)
    (hok : gs.cvResults y fh = Except.ok (arr, tr)) :
    arr.length = gs.param_grid.length ∧
    ∀ (j : ℕ) (p : P), gs.param_grid[j]? = some p →
      ∃ r, evaluate gs.forecaster.ops (gs.forecaster.set_params gs.forecaster.init p)
          y fh gs.cv gs.strategy gs.scoring = Except.ok r ∧
        arr[j]? = some (some (npMean r.1)) := by
  obtain ⟨l1, _, _, w1⟩ :=
    selLoop_ok_spec gs.forecaster y fh gs.cv gs.strategy gs.scoring gs.param_grid 0
      (List.replicate gs.param_grid.length none) [] arr tr hok
  refine ⟨by simpa using l1, ?_⟩
  intro j p hp
  have hj : j < gs.param_grid.length := by
    by_contra hc
    rw [List.getElem?_eq_none (by omega)] at hp
    exact Option.noConfusion hp
  have hget : gs.param_grid.get ⟨j, hj⟩ = p := by
    have hg := List.getElem?_eq_getElem hj
    rw [hg] at hp
    simpa using hp
  obtain ⟨r, hr1, hr2⟩ := w1 j hj
  rw [hget] at hr1
  exact ⟨r, hr1, by simpa using hr2⟩

/-- C7 witness: the theorem applied to a one-configuration, one-window run. -/
theorem cvResults_per_config_in_order_witness :
    ([some (npMean [some (0 : ℚ)])] : List (Option ℚ)).length =
      gsOne.param_grid.length :=
  (cvResults_per_config_in_order gsOne ySmall [1] [some (npMean [some (0 : ℚ)])]
    [Event.fitEv [0]] (by rfl)).1

/-- C7 counterexample: in a run whose grid duplicates one configuration over a
one-window cv there is a single distinct (train-window, configuration) cache
key, yet two fit executions occur — `evaluate` is invoked with no shared
FitCache instance intercepting repeated keys. -/
theorem cvResults_no_shared_fitcache_counterexample :
    (gsDup.cvResults ySmall [1]).toOption.map (fun r => countFits r.2) = some 2 ∧
      (distinctCacheKeys gsDup.param_grid (gsDup.cv.split ySmall)).length = 1 ∧
      (2 : ℕ) ≠ 1 := by
  refine ⟨by rfl, by decide, by decide⟩

/-- C8: on a grid whose two distinct configurations tie exactly (aggregate 0 on
every window), `ForecastingGridSearchCV.fit` computes the tied cv_results but
performs no selection at all — the select-best-params step is only a comment in
the source and `fit` returns `self` with no chosen configuration. -/
theorem fit_computes_tied_results_no_selection :
    (gsTie.cvResults ySmall [1]).toOption.map (fun r => r.1) =
        some [some 0, some 0] ∧
      (gsTie.fit ySmall [1]).toOption.map (fun r => r.1) = some gsTie := by
  constructor
  · norm_num [ForecastingGridSearchCV.cvResults, selLoop, evaluate, evalLoop, clone,
      npMean, gsTie, cvOne, constTemplate, constForecaster, constScoring, iloc, ySmall,
      Except.toOption, Bind.bind, Except.bind]
    decide
  · rfl

/-- C9: `ForecastingGridSearchCV.fit` never mutates the stored forecaster
template — parameters are applied only to a clone — and whenever it returns it
returns `self` unchanged. -/
theorem fit_returns_self_template_unchanged {σ P : Type}
    (gs : ForecastingGridSearchCV σ P) (y : Series) (fh : List ℕ)
    (r : ForecastingGridSearchCV σ P × List Event)
    (hok : gs.fit y fh = Except.ok r) :
    r.1 = gs ∧ r.1.forecaster = gs.forecaster := by
  simp only [ForecastingGridSearchCV.fit, Bind.bind, Except.bind] at hok
  cases hcv : gs.cvResults y fh with
  | error e =>
    rw [hcv] at hok
    exact absurd hok (by simp)
  | ok v =>
    rw [hcv] at hok
    simp only [Except.ok.injEq] at hok
    subst hok
    exact ⟨rfl, rfl⟩

/-- C9 witness: the theorem applied to a concrete successful fit. -/
theorem fit_returns_self_template_unchanged_witness :
    ((gsOne, [Event.fitEv [0]]) : ForecastingGridSearchCV Unit ℕ × List Event).1 =
      gsOne :=
  (fit_returns_self_template_unchanged gsOne ySmall [1] (gsOne, [Event.fitEv [0]])
    (by rfl)).1

/-- C10: `evaluate` pre-allocates its result array with size
`cv.get_n_splits(y)` and writes by index: with total fit/predict/scoring steps,
if `cv.split(y)` yields more pairs than `cv.get_n_splits(y)` the indexed write
goes out of bounds and the call raises IndexError; if it yields at most that
many, the call returns an array of length exactly `cv.get_n_splits(y)` whose
first `len(cv.split(y))` entries are written scores and whose trailing entries
are left uninitialized. -/
theorem evaluate_preallocation_bounds :
    (∀ {σ : Type} (F : Forecaster σ) (s0 : σ) (y : Series) (fh : List ℕ) (cv : CV)
      (strat : String) (scoring : Series → Series → Except String ℚ),
      (∀ s t, ∃ s', F.fit s t fh = Except.ok s') →
      (∀ s, ∃ p, F.predict s = Except.ok p) →
      (∀ a b, ∃ q, scoring a b = Except.ok q) →
      cv.get_n_splits y < (cv.split y).length →
      evaluate F s0 y fh cv strat scoring = Except.error "IndexError") ∧
    (∀ {σ : Type} (F : Forecaster σ) (s0 : σ) (y : Series) (fh : List ℕ) (cv : CV)
      (strat : String) (scoring : Series → Series → Except String ℚ),
      (∀ s t, ∃ s', F.fit s t fh = Except.ok s') →
      (∀ s, ∃ p, F.predict s = Except.ok p) →
      (∀ a b, ∃ q, scoring a b = Except.ok q) →
      (cv.split y).length ≤ cv.get_n_splits y →
      ∃ sc st tr, evaluate F s0 y fh cv strat scoring = Except.ok (sc, st, tr) ∧
        sc.length = cv.get_n_splits y ∧
        (∀ j, j < (cv.split y).length → ∃ q : ℚ, sc[j]? = some (some q)) ∧
        (∀ k, (cv.split y).length ≤ k → k < sc.length → sc[k]? = some none)) := by
  constructor
  · intro σ F s0 y fh cv strat scoring Hfit Hpred Hscore hlt
    have hpos : 0 < (cv.split y).length := by omega
    exact evalLoop_overflow F y fh scoring Hfit Hpred Hscore (cv.split y) 0
      (List.replicate (cv.get_n_splits y) none) s0 []
      (by simpa using hlt) hpos
  · intro σ F s0 y fh cv strat scoring Hfit Hpred Hscore hle
    obtain ⟨sc, st, tr, hok⟩ :=
      evalLoop_total F y fh scoring Hfit Hpred Hscore (cv.split y) 0
        (List.replicate (cv.get_n_splits y) none) s0 [] (by simpa using hle)
    obtain ⟨l1, _, _, u1, w1⟩ :=
      evalLoop_ok_spec F y fh scoring (cv.split y) 0
        (List.replicate (cv.get_n_splits y) none) s0 [] sc st tr hok
    have hlen : sc.length = cv.get_n_splits y := by
      rw [l1, List.length_replicate]
    refine ⟨sc, st, tr, hok, hlen, ?_, ?_⟩
    · intro j hj
      have := w1 j hj
      simpa using this
    · intro k hk1 hk2
      have := u1 k (Or.inr (by simpa using hk1))
      rw [this, List.getElem?_replicate]
      rw [if_pos (by rw [← hlen]; exact hk2)]

/-- C10 witness: the overflow branch applied to a cross-validator reporting 1
split but yielding 2 pairs. -/
theorem evaluate_preallocation_bounds_witness :
    evaluate constForecaster () ySmall [1] cvBad "refit" constScoring =
      Except.error "IndexError" :=
  evaluate_preallocation_bounds.1 constForecaster () ySmall [1] cvBad "refit"
    constScoring (fun s t => ⟨(), rfl⟩) (fun s => ⟨[0], rfl⟩) (fun a b => ⟨0, rfl⟩)
    (by decide)
